import Mathlib

/-!
Shallow embedding of the revenue-split engine and metrics aggregator of the
fulldash repository (package `internal/store`, files `metrics.go` and `db.go`,
with the data model from `internal/models`).  Monetary amounts and hours are
Go `float64`; they are embedded as exact rationals (`ℚ`), the reading the
specification itself sanctions for the conservation properties.  Fallible Go
calls (`(T, error)` returns) are embedded as a pair of the value and an
optional error string, matching Go's multiple-value returns, and functions
that return `(*T, error)` become `Except String T`.
-/

namespace Fulldash

/-- `models.Project` — only the fields the store code reads are embedded:
`ID`, `Revenue`, `Status`, `SecuredBy` (the latter two are Go string types). -/
structure Project where
  id : Int
  revenue : ℚ
  status : String
  securedBy : String
  deriving Repr, DecidableEq

/-- `models.Contribution` — the fields read by the split engine and the
contribution queries: `ProjectID`, `Owner`, `Hours`. -/
structure Contribution where
  projectID : Int
  owner : String
  hours : ℚ
  deriving Repr, DecidableEq

/-- `models.RevenueSplit`: computed split of one project's revenue. -/
structure RevenueSplit where
  noorShare : ℚ
  ahmadShare : ℚ
  method : String
  deriving Repr, DecidableEq

/-- `models.Metrics`: the dashboard aggregate. -/
structure Metrics where
  totalRevenue : ℚ
  noorShare : ℚ
  ahmadShare : ℚ
  openProjects : Nat
  deriving Repr, DecidableEq

/-- The hour-extraction loop of `CalcRevenueSplit` in `metrics.go`
(lines 56-64): a `switch c.Owner` that assigns `noorHours = c.Hours` on
`OwnerNoor`, `ahmadHours = c.Hours` on `OwnerAhmad`, and ignores any other
owner value.  Go assignment (not `+=`): a later entry for the same owner
overwrites an earlier one. -/
def extractHours (contribs : List Contribution) : ℚ × ℚ :=
  contribs.foldl
    (fun acc c =>
      if c.owner = "noor" then (c.hours, acc.2)
      else if c.owner = "ahmad" then (acc.1, c.hours)
      else acc)
    (0, 0)

/-- `splitByOwner` from `metrics.go` (lines 81-91): ownership fallback keyed
on `p.SecuredBy`, with the `switch` default (`both` or anything else) giving
an even split. -/
def splitByOwner (p : Project) : RevenueSplit :=
  if p.securedBy = "noor" then ⟨p.revenue, 0, "owner"⟩
  else if p.securedBy = "ahmad" then ⟨0, p.revenue, "owner"⟩
  else ⟨p.revenue / 2, p.revenue / 2, "owner"⟩

/-- `CalcRevenueSplit` from `metrics.go` (lines 50-78): zero-revenue guard,
then the hours-based split when both extracted hour totals are strictly
positive, otherwise the ownership fallback. -/
def CalcRevenueSplit (p : Project) (contribs : List Contribution) : RevenueSplit :=
  if p.revenue ≤ 0 then ⟨0, 0, "none"⟩
  else
    let nh := (extractHours contribs).1
    let ah := (extractHours contribs).2
    if 0 < nh ∧ 0 < ah then
      ⟨p.revenue * (nh / (nh + ah)), p.revenue * (ah / (nh + ah)), "hours"⟩
    else splitByOwner p

/-- The hour-extraction loop of the second `CalcRevenueSplit`, in `db.go`
(lines 225-232): `if c.Owner == models.OwnerNoor { noorHours = c.Hours }
else { ahmadHours = c.Hours }` — every non-`"noor"` owner's hours land in
`ahmadHours`. -/
def extractHoursDB (contribs : List Contribution) : ℚ × ℚ :=
  contribs.foldl
    (fun acc c =>
      if c.owner = "noor" then (c.hours, acc.2)
      else (acc.1, c.hours))
    (0, 0)

/-- The second `CalcRevenueSplit`, in `db.go` (lines 219-254): same guard and
hours branch as the `metrics.go` version, with the ownership `switch` inlined
instead of calling `splitByOwner`, and the `else`-style hour extraction. -/
def CalcRevenueSplitDB (p : Project) (contribs : List Contribution) : RevenueSplit :=
  if p.revenue ≤ 0 then ⟨0, 0, "none"⟩
  else
    let nh := (extractHoursDB contribs).1
    let ah := (extractHoursDB contribs).2
    if 0 < nh ∧ 0 < ah then
      ⟨p.revenue * (nh / (nh + ah)), p.revenue * (ah / (nh + ah)), "hours"⟩
    else if p.securedBy = "noor" then ⟨p.revenue, 0, "owner"⟩
    else if p.securedBy = "ahmad" then ⟨0, p.revenue, "owner"⟩
    else ⟨p.revenue / 2, p.revenue / 2, "owner"⟩

/-- The persistent state the store queries range over: the `projects` and
`contributions` tables. -/
structure DBState where
  projects : List Project
  contributions : List Contribution
  deriving Repr, DecidableEq

/-- `qMetricsTotalRevenue` (`queries.go`):
`SELECT COALESCE(SUM(revenue), 0), COUNT(*) FROM projects WHERE status = 'paid'`. -/
def qMetricsTotalRevenueQ (db : DBState) : ℚ × Nat :=
  (((db.projects.filter (fun p => p.status = "paid")).map Project.revenue).sum,
   (db.projects.filter (fun p => p.status = "paid")).length)

/-- `qMetricsOpenProjects` (`queries.go`):
`SELECT COUNT(*) FROM projects WHERE status != 'paid'`. -/
def qMetricsOpenProjectsQ (db : DBState) : Nat :=
  (db.projects.filter (fun p => ¬ p.status = "paid")).length

/-- `ListProjectsByStatus` (`db.go`): `SELECT ... FROM projects WHERE
status = ?`.  The `ORDER BY created_at DESC` clause is dropped: creation
times are not embedded and no claim concerns row order. -/
def ListProjectsByStatus (db : DBState) (status : String) : List Project :=
  db.projects.filter (fun p => p.status = status)

/-- `GetContributions` (`db.go`): `SELECT ... FROM contributions WHERE
project_id = ?`, run against an in-memory table (the success case). -/
def GetContributions (db : DBState) (projectID : Int) : List Contribution :=
  db.contributions.filter (fun c => c.projectID = projectID)

/-- `calcRevenueShares` (`metrics.go` lines 33-47), with its two collaborator
calls passed in explicitly: `listPaid` is the `(value, error)` outcome of
`ListProjectsByStatus(StatusPaid)`, and `getContribs` maps a project id to
the `([]Contribution, error)` pair returned by `db.GetContributions`.  The Go
code binds that pair as `contribs, _ :=` — it keeps the slice and discards
the error — so only the `.1` component is used in the loop. -/
def calcRevenueShares (listPaid : Except String (List Project))
    (getContribs : Int → List Contribution × Option String) :
    Except String (ℚ × ℚ) :=
  match listPaid with
  | Except.error e => Except.error e
  | Except.ok paid =>
      Except.ok (paid.foldl
        (fun acc p =>
          let contribs := (getContribs p.id).1
          let split := CalcRevenueSplit p contribs
          (acc.1 + split.noorShare, acc.2 + split.ahmadShare))
        (0, 0))

/-- `GetMetrics` (`metrics.go` lines 9-30) over an in-memory database whose
SQL queries succeed, with the contribution-ledger fetch still allowed to fail
per project (`getContribs` returns Go's `([]Contribution, error)` pair). -/
def GetMetricsWith (db : DBState)
    (getContribs : Int → List Contribution × Option String) :
    Except String Metrics :=
  let tr := (qMetricsTotalRevenueQ db).1
  let op := qMetricsOpenProjectsQ db
  match calcRevenueShares (Except.ok (ListProjectsByStatus db "paid")) getContribs with
  | Except.error e => Except.error e
  | Except.ok shares => Except.ok ⟨tr, shares.1, shares.2, op⟩

/-- `GetMetrics` when every collaborator call is served from the database
state itself (all fetches succeed, error component `none`). -/
def GetMetrics (db : DBState) : Except String Metrics :=
  GetMetricsWith db (fun pid => (GetContributions db pid, none))

/-- Division instrumented with an explicit divide-by-zero guard branch: the
Go runtime has no such branch for `float64` (IEEE division is total), so this
marks every place the source divides and lets reachability of a zero divisor
be stated. -/
def checkedDiv (a b : ℚ) : Option ℚ :=
  if b = 0 then none else some (a / b)

/-- `splitByOwner` with its one division (`p.Revenue / 2` in the default
branch) routed through `checkedDiv`. -/
def splitByOwnerChecked (p : Project) : Option RevenueSplit :=
  if p.securedBy = "noor" then some ⟨p.revenue, 0, "owner"⟩
  else if p.securedBy = "ahmad" then some ⟨0, p.revenue, "owner"⟩
  else (checkedDiv p.revenue 2).map (fun half => ⟨half, half, "owner"⟩)

/-- `CalcRevenueSplit` with every division routed through `checkedDiv`;
`none` is the (claimed unreachable) divide-by-zero branch. -/
def CalcRevenueSplitChecked (p : Project) (contribs : List Contribution) :
    Option RevenueSplit :=
  if p.revenue ≤ 0 then some ⟨0, 0, "none"⟩
  else
    let nh := (extractHours contribs).1
    let ah := (extractHours contribs).2
    if 0 < nh ∧ 0 < ah then
      match checkedDiv nh (nh + ah), checkedDiv ah (nh + ah) with
      | some qn, some qa => some ⟨p.revenue * qn, p.revenue * qa, "hours"⟩
      | _, _ => none
    else splitByOwnerChecked p

/-! Helper lemmas shared by the claim theorems. -/

/-- Every branch of the ownership fallback tags its result `"owner"`. -/
lemma splitByOwner_method (p : Project) : (splitByOwner p).method = "owner" := by
  unfold splitByOwner
  split_ifs <;> rfl

/-- The ownership fallback hands out exactly the project's revenue. -/
lemma splitByOwner_sum (p : Project) :
    (splitByOwner p).noorShare + (splitByOwner p).ahmadShare = p.revenue := by
  unfold splitByOwner
  split_ifs <;> ring

/-- With non-negative revenue, both ownership-fallback shares are non-negative. -/
lemma splitByOwner_nonneg (p : Project) (h : 0 ≤ p.revenue) :
    0 ≤ (splitByOwner p).noorShare ∧ 0 ≤ (splitByOwner p).ahmadShare := by
  unfold splitByOwner
  split_ifs <;> refine ⟨?_, ?_⟩ <;> simp only [] <;> linarith

/-- With non-negative revenue, the two computed shares add up to exactly the
project's revenue (for revenue 0 the `none` branch gives 0 + 0). -/
lemma calcRevenueSplit_sum (p : Project) (contribs : List Contribution)
    (h : 0 ≤ p.revenue) :
    (CalcRevenueSplit p contribs).noorShare + (CalcRevenueSplit p contribs).ahmadShare
      = p.revenue := by
  simp only [CalcRevenueSplit]
  split_ifs with hr hb
  · have h0 : p.revenue = 0 := le_antisymm hr h
    simp [h0]
  · have ht : (extractHours contribs).1 + (extractHours contribs).2 ≠ 0 := by
      have := hb.1; have := hb.2; positivity
    field_simp
    ring
  · exact splitByOwner_sum p

/-- With non-negative revenue, neither computed share is negative. -/
lemma calcRevenueSplit_nonneg (p : Project) (contribs : List Contribution)
    (h : 0 ≤ p.revenue) :
    0 ≤ (CalcRevenueSplit p contribs).noorShare ∧
    0 ≤ (CalcRevenueSplit p contribs).ahmadShare := by
  simp only [CalcRevenueSplit]
  split_ifs with hr hb
  · simp
  · have h1 := hb.1
    have h2 := hb.2
    push_neg at hr
    constructor <;> simp only [] <;> positivity
  · exact splitByOwner_nonneg p h

/-- When every contribution's owner is `"noor"` or `"ahmad"`, the
`switch`-style extraction loop of `metrics.go` and the `if/else` loop of
`db.go` run identically from any accumulator. -/
lemma extract_fold_eq (contribs : List Contribution)
    (h : ∀ c ∈ contribs, c.owner = "noor" ∨ c.owner = "ahmad") :
    ∀ init : ℚ × ℚ,
      contribs.foldl
        (fun acc c =>
          if c.owner = "noor" then (c.hours, acc.2)
          else if c.owner = "ahmad" then (acc.1, c.hours)
          else acc) init
      = contribs.foldl
        (fun acc c =>
          if c.owner = "noor" then (c.hours, acc.2)
          else (acc.1, c.hours)) init := by
  induction contribs with
  | nil => intro init; rfl
  | cons c cs ih =>
      intro init
      have hc := h c (List.mem_cons_self c cs)
      have hcs : ∀ x ∈ cs, x.owner = "noor" ∨ x.owner = "ahmad" :=
        fun x hx => h x (List.mem_cons_of_mem c hx)
      simp only [List.foldl_cons]
      rcases hc with hn | ha
      · rw [hn]
        simp only [if_pos rfl]
        exact ih hcs _
      · rw [ha]
        simp only [String.reduceEq, if_false, if_pos rfl]
        exact ih hcs _

/-- `extractHours` and `extractHoursDB` agree when every owner field is
`"noor"` or `"ahmad"`. -/
lemma extractHours_eq_db (contribs : List Contribution)
    (h : ∀ c ∈ contribs, c.owner = "noor" ∨ c.owner = "ahmad") :
    extractHours contribs = extractHoursDB contribs :=
  extract_fold_eq contribs h (0, 0)

/-- The share-accumulation loop of `calcRevenueShares`, applied to a database
ledger, equals the sums of the per-project shares. -/
lemma shares_foldl_db_eq (db : DBState) :
    ∀ (paid : List Project) (init : ℚ × ℚ),
      paid.foldl
        (fun acc p =>
          (acc.1 + (CalcRevenueSplit p (GetContributions db p.id)).noorShare,
           acc.2 + (CalcRevenueSplit p (GetContributions db p.id)).ahmadShare)) init
      = (init.1 + (paid.map
            (fun p => (CalcRevenueSplit p (GetContributions db p.id)).noorShare)).sum,
         init.2 + (paid.map
            (fun p => (CalcRevenueSplit p (GetContributions db p.id)).ahmadShare)).sum) := by
  intro paid
  induction paid with
  | nil => intro init; simp
  | cons p ps ih =>
      intro init
      simp only [List.foldl_cons, List.map_cons, List.sum_cons]
      rw [ih]
      simp only [Prod.mk.injEq]
      constructor <;> ring

/-- Closed form of `GetMetrics` over an in-memory database: filter/map/sum
over the projects table. -/
lemma getMetrics_eval (db : DBState) :
    GetMetrics db = Except.ok
      ⟨((db.projects.filter (fun p => p.status = "paid")).map Project.revenue).sum,
       ((db.projects.filter (fun p => p.status = "paid")).map
          (fun p => (CalcRevenueSplit p (GetContributions db p.id)).noorShare)).sum,
       ((db.projects.filter (fun p => p.status = "paid")).map
          (fun p => (CalcRevenueSplit p (GetContributions db p.id)).ahmadShare)).sum,
       (db.projects.filter (fun p => ¬ p.status = "paid")).length⟩ := by
  simp only [GetMetrics, GetMetricsWith, calcRevenueShares, ListProjectsByStatus,
    qMetricsTotalRevenueQ, qMetricsOpenProjectsQ]
  rw [shares_foldl_db_eq db]
  simp

/-- Summing both share columns over a list of non-negative-revenue projects
gives the revenue column's sum (pointwise conservation, summed). -/
lemma sum_shares_eq_sum_revenue (db : DBState) :
    ∀ l : List Project, (∀ p ∈ l, 0 ≤ p.revenue) →
      (l.map (fun p => (CalcRevenueSplit p (GetContributions db p.id)).noorShare)).sum
        + (l.map (fun p => (CalcRevenueSplit p (GetContributions db p.id)).ahmadShare)).sum
      = (l.map Project.revenue).sum := by
  intro l
  induction l with
  | nil => simp
  | cons p ps ih =>
      intro h
      simp only [List.map_cons, List.sum_cons]
      have hp := h p (List.mem_cons_self p ps)
      have hps := ih (fun x hx => h x (List.mem_cons_of_mem p hx))
      have hc := calcRevenueSplit_sum p (GetContributions db p.id) hp
      linarith [hc, hps]

/-! Claim theorems. -/

/-- C1: for positive revenue, `CalcRevenueSplit` takes the hours-based branch
exactly when both extracted hour totals are strictly positive, in which case
it returns the proportional shares tagged `"hours"`; and on the concrete
one-sided input (revenue 100, only noor logs 5 hours, secured by both) it
falls through to the ownership rule, giving shares 50 and 50 tagged
`"owner"`, not a 100/0 hours split. -/
theorem calcRevenueSplit_hours_iff :
    (∀ (p : Project) (contribs : List Contribution), 0 < p.revenue →
      ((CalcRevenueSplit p contribs).method = "hours" ↔
        0 < (extractHours contribs).1 ∧ 0 < (extractHours contribs).2) ∧
      (0 < (extractHours contribs).1 ∧ 0 < (extractHours contribs).2 →
        CalcRevenueSplit p contribs =
          ⟨p.revenue * ((extractHours contribs).1 /
              ((extractHours contribs).1 + (extractHours contribs).2)),
           p.revenue * ((extractHours contribs).2 /
              ((extractHours contribs).1 + (extractHours contribs).2)),
           "hours"⟩)) ∧
    CalcRevenueSplit ⟨1, 100, "paid", "both"⟩ [⟨1, "noor", 5⟩] = ⟨50, 50, "owner"⟩ := by
  constructor
  · intro p contribs h
    simp only [CalcRevenueSplit]
    rw [if_neg (not_le.mpr h)]
    by_cases hb : 0 < (extractHours contribs).1 ∧ 0 < (extractHours contribs).2
    · rw [if_pos hb]
      exact ⟨by simpa using hb, fun _ => rfl⟩
    · rw [if_neg hb]
      constructor
      · rw [splitByOwner_method]
        simp only [String.reduceEq, false_iff]
        exact hb
      · intro hc
        exact absurd hc hb
  · norm_num +decide [CalcRevenueSplit, extractHours, splitByOwner]

/-- C1 witness: the hours branch at revenue 100, noor 3 hours, ahmad 1 hour. -/
theorem calcRevenueSplit_hours_iff_witness :
    ((CalcRevenueSplit ⟨1, 100, "paid", "both"⟩ [⟨1, "noor", 3⟩, ⟨1, "ahmad", 1⟩]).method
        = "hours" ↔
      0 < (extractHours [⟨1, "noor", 3⟩, ⟨1, "ahmad", 1⟩]).1 ∧
      0 < (extractHours [⟨1, "noor", 3⟩, ⟨1, "ahmad", 1⟩]).2) ∧
    (0 < (extractHours [⟨1, "noor", 3⟩, ⟨1, "ahmad", 1⟩]).1 ∧
      0 < (extractHours [⟨1, "noor", 3⟩, ⟨1, "ahmad", 1⟩]).2 →
      CalcRevenueSplit ⟨1, 100, "paid", "both"⟩ [⟨1, "noor", 3⟩, ⟨1, "ahmad", 1⟩] =
        ⟨100 * ((extractHours [⟨1, "noor", 3⟩, ⟨1, "ahmad", 1⟩]).1 /
            ((extractHours [⟨1, "noor", 3⟩, ⟨1, "ahmad", 1⟩]).1 +
             (extractHours [⟨1, "noor", 3⟩, ⟨1, "ahmad", 1⟩]).2)),
         100 * ((extractHours [⟨1, "noor", 3⟩, ⟨1, "ahmad", 1⟩]).2 /
            ((extractHours [⟨1, "noor", 3⟩, ⟨1, "ahmad", 1⟩]).1 +
             (extractHours [⟨1, "noor", 3⟩, ⟨1, "ahmad", 1⟩]).2)),
         "hours"⟩) :=
  calcRevenueSplit_hours_iff.1 ⟨1, 100, "paid", "both"⟩
    [⟨1, "noor", 3⟩, ⟨1, "ahmad", 1⟩] (by norm_num)

/-- C2: for positive revenue, both shares returned by `CalcRevenueSplit` are
non-negative and they add up to exactly the revenue (in exact rational
arithmetic), whichever branch produced them. -/
theorem calcRevenueSplit_conserves (p : Project) (contribs : List Contribution)
    (h : 0 < p.revenue) :
    0 ≤ (CalcRevenueSplit p contribs).noorShare ∧
    0 ≤ (CalcRevenueSplit p contribs).ahmadShare ∧
    (CalcRevenueSplit p contribs).noorShare + (CalcRevenueSplit p contribs).ahmadShare
      = p.revenue := by
  obtain ⟨h1, h2⟩ := calcRevenueSplit_nonneg p contribs h.le
  exact ⟨h1, h2, calcRevenueSplit_sum p contribs h.le⟩

/-- C2 witness: conservation at revenue 100 with a one-sided ledger. -/
theorem calcRevenueSplit_conserves_witness :
    0 ≤ (CalcRevenueSplit ⟨1, 100, "paid", "both"⟩ [⟨1, "noor", 3⟩]).noorShare ∧
    0 ≤ (CalcRevenueSplit ⟨1, 100, "paid", "both"⟩ [⟨1, "noor", 3⟩]).ahmadShare ∧
    (CalcRevenueSplit ⟨1, 100, "paid", "both"⟩ [⟨1, "noor", 3⟩]).noorShare +
      (CalcRevenueSplit ⟨1, 100, "paid", "both"⟩ [⟨1, "noor", 3⟩]).ahmadShare = 100 :=
  calcRevenueSplit_conserves ⟨1, 100, "paid", "both"⟩ [⟨1, "noor", 3⟩] (by norm_num)

/-- C3 counterexample: one paid project whose contribution-ledger fetch fails
(`([], some "ledger unavailable")`) does not abort `GetMetrics` — the
computation returns a complete `Metrics` value built from the empty
contribution slice (owner split 50/50), instead of propagating the error. -/
theorem getMetrics_ledger_error_cex :
    GetMetricsWith ⟨[⟨1, 100, "paid", "both"⟩], []⟩
        (fun _ => ([], some "ledger unavailable"))
      = Except.ok ⟨100, 50, 50, 0⟩ := by
  norm_num +decide [GetMetricsWith, calcRevenueShares, CalcRevenueSplit,
    extractHours, splitByOwner, qMetricsTotalRevenueQ, qMetricsOpenProjectsQ,
    ListProjectsByStatus]

/-- C3 amended: `calcRevenueShares` discards the error component of every
contribution-ledger fetch (`contribs, _ :=` in the source): its result only
depends on the contribution slices, it always succeeds once the paid-project
listing succeeded, and only a failure of the paid-project listing itself is
propagated. -/
theorem calcRevenueShares_discards_ledger_errors :
    (∀ (paid : List Project) (g : Int → List Contribution × Option String),
      calcRevenueShares (Except.ok paid) g
        = calcRevenueShares (Except.ok paid) (fun pid => ((g pid).1, none))) ∧
    (∀ (paid : List Project) (g : Int → List Contribution × Option String),
      ∃ s, calcRevenueShares (Except.ok paid) g = Except.ok s) ∧
    (∀ (e : String) (g : Int → List Contribution × Option String),
      calcRevenueShares (Except.error e) g = Except.error e) :=
  ⟨fun _ _ => rfl, fun _ _ => ⟨_, rfl⟩, fun _ _ => rfl⟩

/-- C4: whenever revenue is zero or negative, `CalcRevenueSplit` returns
exactly `{0, 0, "none"}`, for every contribution list. -/
theorem calcRevenueSplit_zero_revenue (p : Project) (contribs : List Contribution)
    (h : p.revenue ≤ 0) :
    CalcRevenueSplit p contribs = ⟨0, 0, "none"⟩ := by
  simp only [CalcRevenueSplit]
  rw [if_pos h]

/-- C4 witness: zero revenue with both collaborators logging positive hours. -/
theorem calcRevenueSplit_zero_revenue_witness :
    CalcRevenueSplit ⟨1, 0, "paid", "noor"⟩ [⟨1, "noor", 2⟩, ⟨1, "ahmad", 3⟩]
      = ⟨0, 0, "none"⟩ :=
  calcRevenueSplit_zero_revenue ⟨1, 0, "paid", "noor"⟩ [⟨1, "noor", 2⟩, ⟨1, "ahmad", 3⟩]
    (by norm_num)

/-- C5: with positive revenue and without both hour totals strictly positive,
`CalcRevenueSplit` returns the ownership split: all to noor for
`securedBy = "noor"`, all to ahmad for `"ahmad"`, and an even split for
`"both"` or any other value — the function is total on malformed tags. -/
theorem calcRevenueSplit_owner_fallback (p : Project) (contribs : List Contribution)
    (h : 0 < p.revenue)
    (hb : ¬(0 < (extractHours contribs).1 ∧ 0 < (extractHours contribs).2)) :
    CalcRevenueSplit p contribs =
      if p.securedBy = "noor" then ⟨p.revenue, 0, "owner"⟩
      else if p.securedBy = "ahmad" then ⟨0, p.revenue, "owner"⟩
      else ⟨p.revenue / 2, p.revenue / 2, "owner"⟩ := by
  simp only [CalcRevenueSplit]
  rw [if_neg (not_le.mpr h), if_neg hb]
  rfl

/-- C5 witness: the fallback at an unrecognized `securedBy` value. -/
theorem calcRevenueSplit_owner_fallback_witness :
    CalcRevenueSplit ⟨1, 100, "paid", "garbage"⟩ [⟨1, "noor", 5⟩] =
      if ("garbage" : String) = "noor" then ⟨100, 0, "owner"⟩
      else if ("garbage" : String) = "ahmad" then ⟨0, 100, "owner"⟩
      else ⟨(100 : ℚ) / 2, (100 : ℚ) / 2, "owner"⟩ :=
  calcRevenueSplit_owner_fallback ⟨1, 100, "paid", "garbage"⟩ [⟨1, "noor", 5⟩]
    (by norm_num) (by norm_num [extractHours])

/-- C6: over any project table whose statuses come from the schema's four
values, `GetMetrics` returns `openProjects` counting exactly the non-paid
(`"new"`, `"in_progress"`, `"done"`) projects, `totalRevenue` summing revenue
over paid projects only, and the two share fields summing the per-project
`CalcRevenueSplit` shares over the paid projects. -/
theorem getMetrics_fields (db : DBState)
    (hstatus : ∀ p ∈ db.projects,
      p.status = "new" ∨ p.status = "in_progress" ∨ p.status = "done" ∨
        p.status = "paid") :
    GetMetrics db = Except.ok
      ⟨((db.projects.filter (fun p => p.status = "paid")).map Project.revenue).sum,
       ((db.projects.filter (fun p => p.status = "paid")).map
          (fun p => (CalcRevenueSplit p (GetContributions db p.id)).noorShare)).sum,
       ((db.projects.filter (fun p => p.status = "paid")).map
          (fun p => (CalcRevenueSplit p (GetContributions db p.id)).ahmadShare)).sum,
       (db.projects.filter (fun p =>
          p.status = "new" ∨ p.status = "in_progress" ∨ p.status = "done")).length⟩ := by
  have hopen : db.projects.filter (fun p => ¬ p.status = "paid")
      = db.projects.filter (fun p =>
          p.status = "new" ∨ p.status = "in_progress" ∨ p.status = "done") := by
    apply List.filter_congr
    intro p hp
    rcases hstatus p hp with h | h | h | h <;> simp [h]
  rw [getMetrics_eval db, hopen]

/-- C6 witness: a four-project table with one project of each status. -/
theorem getMetrics_fields_witness :
    GetMetrics ⟨[⟨1, 100, "paid", "noor"⟩, ⟨2, 0, "new", "both"⟩,
        ⟨3, 40, "in_progress", "ahmad"⟩, ⟨4, 10, "done", "both"⟩],
      [⟨1, "noor", 1⟩, ⟨1, "ahmad", 1⟩]⟩ = Except.ok
      ⟨((([⟨1, 100, "paid", "noor"⟩, ⟨2, 0, "new", "both"⟩,
            ⟨3, 40, "in_progress", "ahmad"⟩, ⟨4, 10, "done", "both"⟩] :
              List Project).filter (fun p => p.status = "paid")).map
          Project.revenue).sum,
       ((([⟨1, 100, "paid", "noor"⟩, ⟨2, 0, "new", "both"⟩,
            ⟨3, 40, "in_progress", "ahmad"⟩, ⟨4, 10, "done", "both"⟩] :
              List Project).filter (fun p => p.status = "paid")).map
          (fun p => (CalcRevenueSplit p
            (GetContributions ⟨[⟨1, 100, "paid", "noor"⟩, ⟨2, 0, "new", "both"⟩,
                ⟨3, 40, "in_progress", "ahmad"⟩, ⟨4, 10, "done", "both"⟩],
              [⟨1, "noor", 1⟩, ⟨1, "ahmad", 1⟩]⟩ p.id)).noorShare)).sum,
       ((([⟨1, 100, "paid", "noor"⟩, ⟨2, 0, "new", "both"⟩,
            ⟨3, 40, "in_progress", "ahmad"⟩, ⟨4, 10, "done", "both"⟩] :
              List Project).filter (fun p => p.status = "paid")).map
          (fun p => (CalcRevenueSplit p
            (GetContributions ⟨[⟨1, 100, "paid", "noor"⟩, ⟨2, 0, "new", "both"⟩,
                ⟨3, 40, "in_progress", "ahmad"⟩, ⟨4, 10, "done", "both"⟩],
              [⟨1, "noor", 1⟩, ⟨1, "ahmad", 1⟩]⟩ p.id)).ahmadShare)).sum,
       (([⟨1, 100, "paid", "noor"⟩, ⟨2, 0, "new", "both"⟩,
            ⟨3, 40, "in_progress", "ahmad"⟩, ⟨4, 10, "done", "both"⟩] :
              List Project).filter (fun p =>
          p.status = "new" ∨ p.status = "in_progress" ∨ p.status = "done")).length⟩ :=
  getMetrics_fields ⟨[⟨1, 100, "paid", "noor"⟩, ⟨2, 0, "new", "both"⟩,
      ⟨3, 40, "in_progress", "ahmad"⟩, ⟨4, 10, "done", "both"⟩],
    [⟨1, "noor", 1⟩, ⟨1, "ahmad", 1⟩]⟩
    (by intro p hp; simp at hp; rcases hp with h | h | h | h <;> rw [h] <;> simp)

/-- C7: routing every division of `CalcRevenueSplit` through an explicit
divide-by-zero guard never reaches the guard's error branch: the checked
variant always returns `some` of the unchecked result, because the hours
branch divides only after `0 < noorHours ∧ 0 < ahmadHours` and the owner
branch divides only by the constant 2. -/
theorem calcRevenueSplitChecked_no_div_by_zero (p : Project)
    (contribs : List Contribution) :
    CalcRevenueSplitChecked p contribs = some (CalcRevenueSplit p contribs) := by
  simp only [CalcRevenueSplitChecked, CalcRevenueSplit]
  split_ifs with hr hb
  · rfl
  · have ht : (extractHours contribs).1 + (extractHours contribs).2 ≠ 0 := by
      have := hb.1; have := hb.2; positivity
    simp [checkedDiv, ht]
  · simp only [splitByOwnerChecked, splitByOwner, checkedDiv]
    split_ifs with h1 h2 h3
    · rfl
    · rfl
    · exact absurd h3 (by norm_num)
    · rfl

/-- C8: `CalcRevenueSplit` is deterministic and reads only the revenue and
securedBy fields of the project plus the contribution list: two calls on
inputs agreeing there return results identical in all three fields. -/
theorem calcRevenueSplit_deterministic (p q : Project) (c d : List Contribution)
    (hrev : p.revenue = q.revenue) (hsec : p.securedBy = q.securedBy) (hc : c = d) :
    (CalcRevenueSplit p c).noorShare = (CalcRevenueSplit q d).noorShare ∧
    (CalcRevenueSplit p c).ahmadShare = (CalcRevenueSplit q d).ahmadShare ∧
    (CalcRevenueSplit p c).method = (CalcRevenueSplit q d).method := by
  subst hc
  have h : CalcRevenueSplit p c = CalcRevenueSplit q c := by
    simp only [CalcRevenueSplit, splitByOwner, hrev, hsec]
  rw [h]
  exact ⟨rfl, rfl, rfl⟩

/-- C8 witness: two projects differing only in id and status give identical
splits. -/
theorem calcRevenueSplit_deterministic_witness :
    (CalcRevenueSplit ⟨1, 100, "paid", "noor"⟩ [⟨1, "noor", 2⟩]).noorShare
      = (CalcRevenueSplit ⟨2, 100, "done", "noor"⟩ [⟨1, "noor", 2⟩]).noorShare ∧
    (CalcRevenueSplit ⟨1, 100, "paid", "noor"⟩ [⟨1, "noor", 2⟩]).ahmadShare
      = (CalcRevenueSplit ⟨2, 100, "done", "noor"⟩ [⟨1, "noor", 2⟩]).ahmadShare ∧
    (CalcRevenueSplit ⟨1, 100, "paid", "noor"⟩ [⟨1, "noor", 2⟩]).method
      = (CalcRevenueSplit ⟨2, 100, "done", "noor"⟩ [⟨1, "noor", 2⟩]).method :=
  calcRevenueSplit_deterministic ⟨1, 100, "paid", "noor"⟩ ⟨2, 100, "done", "noor"⟩
    [⟨1, "noor", 2⟩] [⟨1, "noor", 2⟩] rfl rfl rfl

/-- C9: the `metrics.go` and `db.go` implementations of `CalcRevenueSplit`
agree whenever every contribution's owner is exactly `"noor"` or `"ahmad"`,
and the precondition is necessary: on a contribution list containing the
owner `"both"` the two implementations return different results. -/
theorem calcRevenueSplit_impls_agree :
    (∀ (p : Project) (contribs : List Contribution),
      (∀ c ∈ contribs, c.owner = "noor" ∨ c.owner = "ahmad") →
      CalcRevenueSplit p contribs = CalcRevenueSplitDB p contribs) ∧
    CalcRevenueSplit ⟨1, 100, "paid", "noor"⟩ [⟨1, "noor", 3⟩, ⟨1, "both", 5⟩]
      ≠ CalcRevenueSplitDB ⟨1, 100, "paid", "noor"⟩ [⟨1, "noor", 3⟩, ⟨1, "both", 5⟩] := by
  constructor
  · intro p contribs h
    simp only [CalcRevenueSplit, CalcRevenueSplitDB, splitByOwner,
      extractHours_eq_db contribs h]
  · have h1 : CalcRevenueSplit ⟨1, 100, "paid", "noor"⟩
        [⟨1, "noor", 3⟩, ⟨1, "both", 5⟩] = ⟨100, 0, "owner"⟩ := by
      norm_num +decide [CalcRevenueSplit, extractHours, splitByOwner]
    have h2 : CalcRevenueSplitDB ⟨1, 100, "paid", "noor"⟩
        [⟨1, "noor", 3⟩, ⟨1, "both", 5⟩] = ⟨75 / 2, 125 / 2, "hours"⟩ := by
      norm_num +decide [CalcRevenueSplitDB, extractHoursDB]
    rw [h1, h2]
    intro hEq
    have := congrArg RevenueSplit.method hEq
    simp at this

/-- C9 witness: a well-formed two-entry ledger on which both implementations
coincide. -/
theorem calcRevenueSplit_impls_agree_witness :
    CalcRevenueSplit ⟨1, 100, "paid", "both"⟩ [⟨1, "noor", 2⟩, ⟨1, "ahmad", 6⟩]
      = CalcRevenueSplitDB ⟨1, 100, "paid", "both"⟩ [⟨1, "noor", 2⟩, ⟨1, "ahmad", 6⟩] :=
  calcRevenueSplit_impls_agree.1 ⟨1, 100, "paid", "both"⟩
    [⟨1, "noor", 2⟩, ⟨1, "ahmad", 6⟩] (by simp)

/-- C10: when every paid project has non-negative revenue, the metrics
satisfy `noorShare + ahmadShare = totalRevenue` exactly; and a paid project
with negative revenue breaks the equality (it lowers `totalRevenue` while
contributing zero shares). -/
theorem getMetrics_shares_sum_total :
    (∀ db : DBState,
      (∀ p ∈ db.projects, p.status = "paid" → 0 ≤ p.revenue) →
      ∃ m, GetMetrics db = Except.ok m ∧
        m.noorShare + m.ahmadShare = m.totalRevenue) ∧
    (∃ m, GetMetrics ⟨[⟨1, -100, "paid", "both"⟩], []⟩ = Except.ok m ∧
      m.noorShare + m.ahmadShare ≠ m.totalRevenue) := by
  constructor
  · intro db hrev
    refine ⟨_, getMetrics_eval db, ?_⟩
    apply sum_shares_eq_sum_revenue
    intro p hp
    rw [List.mem_filter] at hp
    exact hrev p hp.1 (by simpa using hp.2)
  · refine ⟨⟨-100, 0, 0, 0⟩, ?_, by norm_num⟩
    norm_num +decide [GetMetrics, GetMetricsWith, calcRevenueShares, CalcRevenueSplit,
      extractHours, splitByOwner, qMetricsTotalRevenueQ, qMetricsOpenProjectsQ,
      ListProjectsByStatus, GetContributions]

/-- C10 witness: a single paid project with non-negative revenue. -/
theorem getMetrics_shares_sum_total_witness :
    ∃ m, GetMetrics ⟨[⟨1, 100, "paid", "noor"⟩], []⟩ = Except.ok m ∧
      m.noorShare + m.ahmadShare = m.totalRevenue :=
  getMetrics_shares_sum_total.1 ⟨[⟨1, 100, "paid", "noor"⟩], []⟩
    (by intro p hp; simp at hp; rw [hp]; norm_num)

end Fulldash
